import Mathlib

/-!
Shallow embedding of the redbox repository (github.com/christiangriset/redbox):
the S3Box buffered shipper (src/s3box/s3box.go) and the Redbox session state
machine with its transactional Redshift load (src/redbox.go).

External collaborators (the AWS S3 client behind `writeToS3`, the Go standard
library's `encoding/json.Unmarshal`, the `database/sql` transaction handle and
the wall clock) are modelled as oracle parameters:
  * `store : Nat → Bool` — whether the k-th S3 write of this box succeeds
    (the box carries a running write counter; `writeToS3` itself is an
    out-of-scope I/O wrapper per the design, only its success/failure and the
    keys handed to it matter here);
  * `jsonOk : List Nat → Bool` — whether `json.Unmarshal(row, &map)` succeeds;
  * `beginOk : Bool`, `execOk : String → Bool`, `commitOk : Bool` — outcomes
    of `tx.Begin` / `tx.Exec stmt` / `tx.Commit` (`tx.Rollback`'s error is
    discarded by the Go code, so it needs no oracle);
  * `now : String` — the `time.Now().Format(time.RFC3339)` value used by
    `manifestSlug`, and a `timestamp : Nat` standing for `UnixNano`.
Buffers and rows are byte lists (`List Nat`).
-/

namespace Redbox

/-- Error values of the two Go packages (`var (...)` blocks of
`src/s3box/s3box.go` and `src/redbox.go`) plus the opaque errors surfaced
from the external store and SQL driver. -/
inductive Err where
  /-- s3box.errBoxIsShipped -/
  | boxIsShipped
  /-- an error returned by the external writeToS3 -/
  | s3WriteFailed
  /-- redbox.errBoxShipped -/
  | boxShipped
  /-- redbox.errShippingInProgress -/
  | shippingInProgress
  /-- redbox.errInvalidJSONInput -/
  | invalidJSONInput
  /-- redbox.errNothingToShip -/
  | nothingToShip
  /-- an error returned by tx.Begin or tx.Commit -/
  | txFailure
  /-- an error returned by tx.Exec -/
  | txExecFailure
  deriving DecidableEq, Repr

/-- Outcome of a Go call: a value, a returned error, or a runtime panic
(integer divide by zero, negative-length make). -/
inductive COut (α : Type) where
  | ok (val : α)
  | fail (e : Err)
  | panics
  deriving DecidableEq, Repr

/-- The newline byte appended by `S3Box.Pack` (`data = append(data, '\n')`). -/
def newline : Nat := 10

/-- `S3Box` of src/s3box/s3box.go (the mutex and the s3Handler are elided:
the former guards the in-memory state we model directly, the latter is the
external client). `writeCount` numbers this box's calls to the external
`writeToS3`, letting the `store` oracle decide each call's outcome. -/
structure S3Box where
  s3Bucket : String
  bufferSize : Nat
  bufferedData : List Nat
  timestamp : Nat
  fileLocations : List String
  isShipped : Bool
  writeCount : Nat
  deriving DecidableEq, Repr

/-- `S3Box.dumpToS3` (src/s3box/s3box.go lines 207-220): a no-op on an empty
buffer; otherwise writes the buffer under key
`fmt.Sprintf("%d_%d.gz", sb.timestamp.UnixNano(), len(sb.fileLocations))`,
and only on success clears the buffer and appends
`s3://<bucket>/<key>` to `fileLocations`. -/
def S3Box.dumpToS3 (store : Nat → Bool) (sb : S3Box) : S3Box × Option Err :=
  if sb.bufferedData = [] then (sb, none)
  else
    let fileNumber := sb.fileLocations.length
    let fileKey := toString sb.timestamp ++ "_" ++ toString fileNumber ++ ".gz"
    if store sb.writeCount then
      ({ sb with
          bufferedData := [],
          fileLocations :=
            sb.fileLocations ++ ["s3://" ++ sb.s3Bucket ++ "/" ++ fileKey],
          writeCount := sb.writeCount + 1 }, none)
    else ({ sb with writeCount := sb.writeCount + 1 }, some .s3WriteFailed)

/-- `S3Box.Pack` (src/s3box/s3box.go lines 135-156): rejects a shipped box,
appends `data ++ '\n'` to the buffer, and if the buffer now exceeds
`bufferSize` triggers `dumpToS3`; a failed dump restores the buffer to
`oldBuffer` and returns the dump's error. -/
def S3Box.Pack (store : Nat → Bool) (sb : S3Box) (data : List Nat) :
    S3Box × Option Err :=
  if sb.isShipped then (sb, some .boxIsShipped)
  else
    let oldBuffer := sb.bufferedData
    let data2 := data ++ [newline]
    let sb1 := { sb with bufferedData := sb.bufferedData ++ data2 }
    if sb1.bufferedData.length > sb1.bufferSize then
      match S3Box.dumpToS3 store sb1 with
      | (sb2, some e) => ({ sb2 with bufferedData := oldBuffer }, some e)
      | (sb2, none) => (sb2, none)
    else (sb1, none)

/-- The manifest `entry` struct of `S3Box.CreateManifests`
(`{URL string; Mandatory bool}`). -/
structure ManifestEntry where
  url : String
  mandatory : Bool
  deriving DecidableEq, Repr

/-- The distribution loop of `S3Box.CreateManifests`
(src/s3box/s3box.go lines 183-189):
`for i, fileName := range sb.fileLocations { index := i % nManifests;
manifests[index].Entries = append(manifests[index].Entries, entry{fileName, true}) }`,
with `i` the running index and `gs` the `manifests` slice. -/
def distributeLoop (n : Nat) :
    List String → Nat → List (List ManifestEntry) → List (List ManifestEntry)
  | [], _, gs => gs
  | fileName :: rest, i, gs =>
    let index := i % n
    distributeLoop n rest (i + 1)
      (gs.set index (gs.getD index [] ++ [⟨fileName, true⟩]))

/-- The `manifests` slice of `S3Box.CreateManifests` after its distribution
loop: `make([]entries, n)` then round-robin appends. -/
def manifestGroups (locs : List String) (n : Nat) : List (List ManifestEntry) :=
  distributeLoop n locs 0 (List.replicate n [])

/-- The manifest-upload loop of `S3Box.CreateManifests`
(src/s3box/s3box.go lines 191-200): names each group
`fmt.Sprintf("%s_%d.manifest", manifestSlug, i)` and writes it via
`writeToS3`, returning on the first failed write. Returns the collected
names, the advanced write counter and the error, if any. -/
def uploadLoop (store : Nat → Bool) (manifestSlug : String) :
    List (List ManifestEntry) → Nat → Nat → List String × Nat × Option Err
  | [], _, wc => ([], wc, none)
  | _manifest :: rest, i, wc =>
    let manifestName := manifestSlug ++ "_" ++ toString i ++ ".manifest"
    if store wc then
      let (names, wc2, e) := uploadLoop store manifestSlug rest (i + 1) (wc + 1)
      (manifestName :: names, wc2, e)
    else ([], wc + 1, some .s3WriteFailed)

/-- `S3Box.CreateManifests` (src/s3box/s3box.go lines 161-204): dump the
remaining buffer, clamp `nManifests` down to `len(fileLocations)`, build the
groups round-robin, upload each under `<slug>_<i>.manifest`, mark the box
shipped and return the manifest names. `nManifests` is a Go `int`:
`make([]entries, n)` panics for negative `n`, and the loop's `i % 0` panics
when the location list is non-empty and `n = 0`. -/
def S3Box.CreateManifests (store : Nat → Bool) (sb : S3Box)
    (manifestSlug : String) (nManifests : Int) : S3Box × COut (List String) :=
  match S3Box.dumpToS3 store sb with
  | (sb1, some e) => (sb1, .fail e)
  | (sb1, none) =>
    let nM : Int :=
      if nManifests > (sb1.fileLocations.length : Int) then
        (sb1.fileLocations.length : Int)
      else nManifests
    if nM < 0 then (sb1, .panics)
    else if nM = 0 ∧ sb1.fileLocations ≠ [] then (sb1, .panics)
    else
      let n := nM.toNat
      let groups := manifestGroups sb1.fileLocations n
      let (names, wc, e) := uploadLoop store manifestSlug groups 0 sb1.writeCount
      match e with
      | some e2 => ({ sb1 with writeCount := wc }, .fail e2)
      | none => ({ sb1 with writeCount := wc, isShipped := true }, .ok names)

/-- `defaultNManifests` of src/redbox.go. -/
def defaultNManifests : Int := 4

/-- `Redbox` of src/redbox.go (mutex and `*sql.DB` handle elided; the
s3Box field holds the concrete `S3Box` that the production `NewRedbox`
installs). -/
structure Box where
  schema : String
  table : String
  awsKey : String
  awsPassword : String
  s3Bucket : String
  s3Region : String
  truncate : Bool
  nManifests : Int
  s3Box : S3Box
  shippingInProgress : Bool
  shipped : Bool
  deriving DecidableEq, Repr

/-- `NewRedboxOptions` of src/redbox.go (Redshift connection configuration
elided — it only yields the external `*sql.DB`). -/
structure NewRedboxOptions where
  schema : String
  table : String
  s3Bucket : String
  s3Region : String
  awsKey : String
  awsPassword : String
  bufferSize : Nat
  nManifests : Int
  truncate : Bool

/-- `defaultBufferSize` of src/s3box/s3box.go (10 MB). -/
def defaultBufferSize : Nat := 10 * 1000 * 1000

/-- `NewRedbox` (src/redbox.go lines 135-175) composed with `NewS3Box`
(src/s3box/s3box.go lines 91-131), with the external steps (environment
credentials, region lookup, AWS session, Redshift connection) taken as
succeeding; `timestamp` stands for the `time.Now()` taken by `NewS3Box`.
Returns `none` exactly on the `errIncompleteArgs` check; a non-positive
`NManifests` is defaulted to 4, a non-positive `BufferSize` to 10 MB. -/
def NewRedbox (options : NewRedboxOptions) (timestamp : Nat) : Option Box :=
  if options.schema = "" ∨ options.table = "" ∨ options.s3Bucket = "" then none
  else
    some
      { schema := options.schema
        table := options.table
        s3Bucket := options.s3Bucket
        s3Region := options.s3Region
        awsKey := options.awsKey
        awsPassword := options.awsPassword
        truncate := options.truncate
        nManifests :=
          if options.nManifests ≤ 0 then defaultNManifests else options.nManifests
        s3Box :=
          { s3Bucket := options.s3Bucket
            bufferSize :=
              if options.bufferSize > 0 then options.bufferSize else defaultBufferSize
            bufferedData := []
            timestamp := timestamp
            fileLocations := []
            isShipped := false
            writeCount := 0 }
        shippingInProgress := false
        shipped := false }

/-- `Redbox.Pack` (src/redbox.go lines 178-191): reject shipped /
shipping-in-progress boxes, reject rows that `json.Unmarshal` cannot read
into a map (`jsonOk` oracle), then delegate to `S3Box.Pack`. -/
def Box.Pack (jsonOk : List Nat → Bool) (store : Nat → Bool) (rb : Box)
    (row : List Nat) : Box × Option Err :=
  if rb.shipped then (rb, some .boxShipped)
  else if rb.shippingInProgress then (rb, some .shippingInProgress)
  else if ¬ jsonOk row then (rb, some .invalidJSONInput)
  else
    let (sb1, e) := S3Box.Pack store rb.s3Box row
    ({ rb with s3Box := sb1 }, e)

/-- One call made on the `database/sql` transaction (recorded whether or not
the call succeeds). -/
inductive DBEvent where
  | begin
  | exec (stmt : String)
  | commit
  | rollback
  deriving DecidableEq, Repr

/-- The `delStmt` of `Redbox.copyToRedshift`:
`fmt.Sprintf("DELETE FROM \"%s\".\"%s\"", rb.schema, rb.table)`. -/
def Box.deleteStatement (rb : Box) : String :=
  "DELETE FROM \"" ++ rb.schema ++ "\".\"" ++ rb.table ++ "\""

/-- `Redbox.copyStatement` (src/redbox.go lines 260-267). -/
def Box.copyStatement (rb : Box) (manifest : String) : String :=
  let manifestURL := "s3://" ++ rb.s3Bucket ++ "/" ++ manifest
  let copy := "COPY \"" ++ rb.schema ++ "\".\"" ++ rb.table ++ "\" FROM '"
    ++ manifestURL ++ "' MANIFEST REGION '" ++ rb.s3Region ++ "'"
  let dataFormat := "GZIP JSON 'auto'"
  let options := "TIMEFORMAT 'auto' TRUNCATECOLUMNS STATUPDATE ON COMPUPDATE ON"
  let creds := "CREDENTIALS 'aws_access_key_id=" ++ rb.awsKey
    ++ ";aws_secret_access_key=" ++ rb.awsPassword ++ "'"
  copy ++ " " ++ dataFormat ++ " " ++ options ++ " " ++ creds

/-- The manifest loop of `Redbox.copyToRedshift` (src/redbox.go lines
248-254): `tx.Exec` of each COPY statement in order, stopping at the first
failure. Returns the exec events made and whether all succeeded. -/
def execCopyLoop (execOk : String → Bool) (rb : Box) :
    List String → List DBEvent × Bool
  | [] => ([], true)
  | manifest :: rest =>
    let copyStmt := rb.copyStatement manifest
    if execOk copyStmt then
      let (evs, ok) := execCopyLoop execOk rb rest
      (.exec copyStmt :: evs, ok)
    else ([.exec copyStmt], false)

/-- `Redbox.copyToRedshift` (src/redbox.go lines 234-257): `Begin`; when
`truncate` is set, `Exec` the DELETE statement (rolling back on failure);
`Exec` one COPY statement per manifest in order (rolling back on the first
failure); `Commit`. Returns the sequence of transaction calls made and the
returned error, if any. -/
def Box.copyToRedshift (beginOk : Bool) (execOk : String → Bool)
    (commitOk : Bool) (rb : Box) (manifests : List String) :
    List DBEvent × Option Err :=
  if ¬ beginOk then ([.begin], some .txFailure)
  else if rb.truncate ∧ ¬ execOk rb.deleteStatement then
    ([.begin, .exec rb.deleteStatement, .rollback], some .txExecFailure)
  else
    let delEvents : List DBEvent :=
      if rb.truncate then [.exec rb.deleteStatement] else []
    let (copyEvents, ok) := execCopyLoop execOk rb manifests
    if ok then
      if commitOk then ([.begin] ++ delEvents ++ copyEvents ++ [.commit], none)
      else ([.begin] ++ delEvents ++ copyEvents ++ [.commit], some .txFailure)
    else ([.begin] ++ delEvents ++ copyEvents ++ [.rollback], some .txExecFailure)

/-- `Redbox.manifestSlug` (src/redbox.go lines 228-230), with the formatted
`time.Now()` passed in as `now`. -/
def Box.manifestSlug (rb : Box) (now : String) : String :=
  rb.schema ++ "_" ++ rb.table ++ "_" ++ now

/-- `Redbox.Ship` (src/redbox.go lines 197-225): reject shipped /
shipping-in-progress boxes; set the shipping flag (cleared again on every
exit by the deferred call); `CreateManifests`; fail with `errNothingToShip`
on an empty manifest list; `copyToRedshift`; only then `markShipped`.
Returns the final box, the transaction calls made and the outcome. -/
def Box.Ship (store : Nat → Bool) (beginOk : Bool) (execOk : String → Bool)
    (commitOk : Bool) (now : String) (rb : Box) :
    Box × List DBEvent × COut (List String) :=
  if rb.shipped then (rb, [], .fail .boxShipped)
  else if rb.shippingInProgress then (rb, [], .fail .shippingInProgress)
  else
    match S3Box.CreateManifests store rb.s3Box (rb.manifestSlug now) rb.nManifests with
    | (sb1, .fail e) => ({ rb with s3Box := sb1 }, [], .fail e)
    | (sb1, .panics) => ({ rb with s3Box := sb1 }, [], .panics)
    | (sb1, .ok manifests) =>
      let rb1 := { rb with s3Box := sb1 }
      if manifests = [] then (rb1, [], .fail .nothingToShip)
      else
        match rb1.copyToRedshift beginOk execOk commitOk manifests with
        | (trace, some e) => (rb1, trace, .fail e)
        | (trace, none) => ({ rb1 with shipped := true }, trace, .ok manifests)

/-- Specification-side description of one round-robin group: the entries of
the locations whose 0-based index (counting from `i`) is congruent to `j`
modulo `n`, in order. Used to state what the distribution loop computes. -/
def modSelect : List String → Nat → Nat → Nat → List ManifestEntry
  | [], _, _, _ => []
  | l :: rest, i, n, j =>
    (if i % n = j then [⟨l, true⟩] else []) ++ modSelect rest (i + 1) n j

/-- The number of indices `i, i+1, ..., i+L-1` congruent to `j` modulo `n`:
the length of a round-robin group. -/
def cntFrom : Nat → Nat → Nat → Nat → Nat
  | 0, _, _, _ => 0
  | L + 1, i, n, j => (if i % n = j then 1 else 0) + cntFrom L (i + 1) n j

/-- Total number of entries across all manifest groups. -/
def totalEntries (gs : List (List ManifestEntry)) : Nat :=
  (gs.map List.length).sum

/-! ## Concrete fixtures for witnesses and counterexamples -/

/-- An always-succeeding store oracle. -/
def storeT : Nat → Bool := fun _ => true

/-- A store oracle that fails exactly once: on call 0. -/
def storeFailFirst : Nat → Bool := fun k => decide (0 < k)

/-- A JSON oracle accepting every row. -/
def jsonT : List Nat → Bool := fun _ => true

/-- An exec oracle accepting every statement. -/
def execT : String → Bool := fun _ => true

/-- A freshly constructed `S3Box` with a 10-byte threshold. -/
def sbFresh : S3Box :=
  { s3Bucket := "b", bufferSize := 10, bufferedData := [], timestamp := 7,
    fileLocations := [], isShipped := false, writeCount := 0 }

/-- A fresh `S3Box` holding ten produced locations and an empty buffer. -/
def sbTen : S3Box :=
  { sbFresh with
      fileLocations := (List.range 10).map (fun i => "f" ++ toString i) }

/-- A freshly constructed session. -/
def rbFresh : Box :=
  { schema := "s", table := "t", awsKey := "k", awsPassword := "p",
    s3Bucket := "b", s3Region := "r", truncate := false, nManifests := 4,
    s3Box := sbFresh, shippingInProgress := false, shipped := false }

/-- A session already shipped. -/
def rbShipped : Box := { rbFresh with shipped := true }

/-- A session holding one produced location, ready to ship. -/
def rbOne : Box :=
  { rbFresh with s3Box := { sbFresh with fileLocations := ["f0"] } }

/-- A fresh session with the truncate flag configured. -/
def rbTrunc : Box := { rbFresh with truncate := true }

/-- Constructor options with a non-positive manifest count. -/
def optsW : NewRedboxOptions :=
  { schema := "s", table := "t", s3Bucket := "b", s3Region := "r",
    awsKey := "k", awsPassword := "p", bufferSize := 10, nManifests := 0,
    truncate := false }

/-! ## Helper lemmas -/

theorem getD_set_self {α : Type} (l : List α) (i : Nat) (x d : α)
    (h : i < l.length) : (l.set i x).getD i d = x := by
  simp [List.getD_eq_getElem?_getD, List.getElem?_set_self h]

theorem getD_set_ne {α : Type} (l : List α) (i j : Nat) (x d : α)
    (h : i ≠ j) : (l.set i x).getD j d = l.getD j d := by
  simp [List.getD_eq_getElem?_getD, List.getElem?_set_ne h]

theorem getD_replicate_lt {α : Type} (n j : Nat) (a d : α) (h : j < n) :
    (List.replicate n a).getD j d = a := by
  induction n generalizing j with
  | zero => omega
  | succ n ih =>
    cases j with
    | zero => simp [List.replicate]
    | succ j => simpa [List.replicate] using ih j (by omega)

/-- The distribution loop preserves the number of groups. -/
theorem distributeLoop_length (n : Nat) :
    ∀ (locs : List String) (i : Nat) (gs : List (List ManifestEntry)),
      (distributeLoop n locs i gs).length = gs.length := by
  intro locs
  induction locs with
  | nil => intro i gs; rfl
  | cons l rest ih =>
    intro i gs
    unfold distributeLoop
    rw [ih]
    exact List.length_set gs _ _

/-- Characterization of the distribution loop: starting from groups `gs` of
size `n`, group `j` ends up with its old content followed by the entries of
the locations whose running index is congruent to `j` modulo `n`. -/
theorem distributeLoop_getD (n : Nat) (hn : 0 < n) :
    ∀ (locs : List String) (i : Nat) (gs : List (List ManifestEntry)),
      gs.length = n → ∀ j, j < n →
      (distributeLoop n locs i gs).getD j []
        = gs.getD j [] ++ modSelect locs i n j := by
  intro locs
  induction locs with
  | nil =>
    intro i gs hg j hj
    simp [distributeLoop, modSelect]
  | cons l rest ih =>
    intro i gs hg j hj
    have hidx : i % n < gs.length := by
      rw [hg]
      exact Nat.mod_lt _ hn
    have hg2 : (gs.set (i % n) (gs.getD (i % n) [] ++ [⟨l, true⟩])).length = n := by
      rw [List.length_set]
      exact hg
    unfold distributeLoop
    rw [ih (i + 1) _ hg2 j hj]
    rw [show modSelect (l :: rest) i n j
        = (if i % n = j then [⟨l, true⟩] else []) ++ modSelect rest (i + 1) n j
      from rfl]
    by_cases hij : i % n = j
    · subst hij
      rw [getD_set_self _ _ _ _ hidx]
      simp
    · rw [getD_set_ne _ _ _ _ _ hij]
      simp [hij]

/-- The length of a round-robin group equals the count of congruent
indices. -/
theorem modSelect_length :
    ∀ (locs : List String) (i n j : Nat),
      (modSelect locs i n j).length = cntFrom locs.length i n j := by
  intro locs
  induction locs with
  | nil => intro i n j; rfl
  | cons l rest ih =>
    intro i n j
    unfold modSelect cntFrom
    rw [List.length_append, ih]
    by_cases h : i % n = j <;> simp [h]

/-- Step lemma: extending the index range by one adds the indicator of the
last index. -/
theorem cntFrom_succ (n j : Nat) :
    ∀ (L i : Nat),
      cntFrom (L + 1) i n j
        = cntFrom L i n j + (if (i + L) % n = j then 1 else 0) := by
  intro L
  induction L with
  | zero =>
    intro i
    simp [cntFrom]
  | succ L ih =>
    intro i
    have h1 : cntFrom (L + 1 + 1) i n j
        = (if i % n = j then 1 else 0) + cntFrom (L + 1) (i + 1) n j := rfl
    rw [h1, ih (i + 1)]
    have h2 : cntFrom (L + 1) i n j
        = (if i % n = j then 1 else 0) + cntFrom L (i + 1) n j := rfl
    rw [h2, show i + 1 + L = i + (L + 1) by omega]
    omega

/-- Closed form: among `0, ..., L-1` exactly `L / n` indices are congruent
to `j` modulo `n`, plus one more when `j < L % n`. -/
theorem cntFrom_closed (n j : Nat) (hn : 0 < n) (hj : j < n) :
    ∀ L, cntFrom L 0 n j = L / n + (if j < L % n then 1 else 0) := by
  intro L
  induction L with
  | zero => simp [cntFrom]
  | succ L ih =>
    rw [cntFrom_succ n j L 0, ih]
    have hr : L % n < n := Nat.mod_lt _ hn
    have hL : n * (L / n) + L % n = L := Nat.div_add_mod L n
    by_cases he : L % n + 1 = n
    · have hL1 : L + 1 = n * (L / n + 1) := by
        rw [Nat.mul_add, Nat.mul_one]
        omega
      have hdiv : (L + 1) / n = L / n + 1 := by
        rw [hL1]
        exact Nat.mul_div_cancel_left _ hn
      have hmod : (L + 1) % n = 0 := by
        rw [hL1]
        exact Nat.mul_mod_right n _
      rw [hdiv, hmod]
      simp only [Nat.zero_le, Nat.not_lt_zero, if_false]
      by_cases h1 : j < L % n <;> by_cases h2 : L % n = j <;>
        simp [h1, h2] <;> omega
    · have he2 : L % n + 1 < n := by omega
      have hL1 : L + 1 = n * (L / n) + (L % n + 1) := by omega
      have hdiv : (L + 1) / n = L / n := by
        rw [hL1, Nat.mul_add_div hn, Nat.div_eq_of_lt he2]
        omega
      have hmod : (L + 1) % n = L % n + 1 := by
        rw [hL1, Nat.mul_add_mod]
        exact Nat.mod_eq_of_lt he2
      rw [hdiv, hmod]
      by_cases h1 : j < L % n <;> by_cases h2 : L % n = j <;>
        by_cases h3 : j < L % n + 1 <;> simp [h1, h2, h3] <;> omega

/-- Setting one group to itself extended by one entry raises the total
entry count by one. -/
theorem totalEntries_set :
    ∀ (gs : List (List ManifestEntry)) (k : Nat) (e : ManifestEntry),
      k < gs.length →
      totalEntries (gs.set k (gs.getD k [] ++ [e])) = totalEntries gs + 1 := by
  intro gs
  induction gs with
  | nil =>
    intro k e h
    simp at h
  | cons g rest ih =>
    intro k e h
    cases k with
    | zero =>
      show totalEntries ((g ++ [e]) :: rest) = totalEntries (g :: rest) + 1
      simp [totalEntries]
      omega
    | succ k =>
      have hk : k < rest.length := by simpa using h
      have hrec := ih k e hk
      show totalEntries (g :: rest.set k (rest.getD k [] ++ [e]))
          = totalEntries (g :: rest) + 1
      have hcons : totalEntries (g :: rest.set k (rest.getD k [] ++ [e]))
          = g.length + totalEntries (rest.set k (rest.getD k [] ++ [e])) := by
        simp [totalEntries]
      rw [hcons, hrec]
      simp [totalEntries]
      omega

/-- The distribution loop adds one entry per location to the total. -/
theorem distributeLoop_total (n : Nat) (hn : 0 < n) :
    ∀ (locs : List String) (i : Nat) (gs : List (List ManifestEntry)),
      gs.length = n →
      totalEntries (distributeLoop n locs i gs)
        = totalEntries gs + locs.length := by
  intro locs
  induction locs with
  | nil =>
    intro i gs hg
    simp [distributeLoop]
  | cons l rest ih =>
    intro i gs hg
    have hidx : i % n < gs.length := by
      rw [hg]
      exact Nat.mod_lt _ hn
    have hg2 : (gs.set (i % n) (gs.getD (i % n) [] ++ [⟨l, true⟩])).length = n := by
      rw [List.length_set]
      exact hg
    unfold distributeLoop
    rw [ih (i + 1) _ hg2, totalEntries_set gs (i % n) _ hidx]
    simp only [List.length_cons]
    omega

/-- Under an always-succeeding store the upload loop returns one name per
group and no error. -/
theorem uploadLoop_all (store : Nat → Bool) (slug : String)
    (hstore : ∀ k, store k = true) :
    ∀ (groups : List (List ManifestEntry)) (i wc : Nat),
      (uploadLoop store slug groups i wc).1.length = groups.length ∧
      (uploadLoop store slug groups i wc).2.2 = none := by
  intro groups
  induction groups with
  | nil =>
    intro i wc
    simp [uploadLoop]
  | cons g rest ih =>
    intro i wc
    rcases hrec : uploadLoop store slug rest (i + 1) (wc + 1) with ⟨names, wc2, e⟩
    have := ih (i + 1) (wc + 1)
    rw [hrec] at this
    unfold uploadLoop
    rw [hrec]
    simp only [hstore wc, if_true]
    simpa using this

/-- There are as many manifest groups as requested (after clamping). -/
theorem manifestGroups_length (locs : List String) (n : Nat) :
    (manifestGroups locs n).length = n := by
  unfold manifestGroups
  rw [distributeLoop_length]
  exact List.length_replicate n []

/-- `S3Box.Pack` under a failing flush: the buffer now exceeds capacity, the
store rejects the write, so the buffer is rolled back to its pre-call value
and the write failure is surfaced. -/
theorem pack_flushFail (store : Nat → Bool) (sb : S3Box) (row : List Nat)
    (h1 : sb.isShipped = false)
    (h2 : sb.bufferedData.length + row.length + 1 > sb.bufferSize)
    (h3 : store sb.writeCount = false) :
    S3Box.Pack store sb row
      = ({ sb with writeCount := sb.writeCount + 1 }, some .s3WriteFailed) := by
  have hlen : (sb.bufferedData ++ (row ++ [newline])).length
      = sb.bufferedData.length + row.length + 1 := by
    simp only [List.length_append, List.length_cons, List.length_nil]
    omega
  have hne : sb.bufferedData ++ (row ++ [newline]) ≠ [] := by
    intro h
    have := congrArg List.length h
    simp [hlen] at this
  simp only [S3Box.Pack, h1, Bool.false_eq_true, if_false]
  rw [if_pos (by simpa [hlen] using h2)]
  simp only [S3Box.dumpToS3, hne, if_neg (by exact hne), h3,
    Bool.false_eq_true, if_false]

/-- The only error `dumpToS3` returns is the store's write failure. -/
theorem dump_fail_err (store : Nat → Bool) (sb : S3Box) (e : Err)
    (h : (S3Box.dumpToS3 store sb).2 = some e) : e = .s3WriteFailed := by
  unfold S3Box.dumpToS3 at h
  split at h
  · simp at h
  · split at h
    · simp at h
    · simp at h
      exact h.symm

/-- The only error the manifest-upload loop returns is the store's write
failure. -/
theorem uploadLoop_fail_err (store : Nat → Bool) (slug : String) :
    ∀ (groups : List (List ManifestEntry)) (i wc : Nat) (e : Err),
      (uploadLoop store slug groups i wc).2.2 = some e →
      e = .s3WriteFailed := by
  intro groups
  induction groups with
  | nil =>
    intro i wc e h
    simp [uploadLoop] at h
  | cons g rest ih =>
    intro i wc e h
    rcases hrec : uploadLoop store slug rest (i + 1) (wc + 1) with ⟨names, wc2, e2⟩
    unfold uploadLoop at h
    by_cases hs : store wc
    · simp only [hs, if_true, hrec] at h
      exact ih (i + 1) (wc + 1) e (by rw [hrec]; simpa using h)
    · simp [hs] at h
      exact h.symm

/-- The only error `CreateManifests` returns is the store's write failure. -/
theorem createManifests_fail_err (store : Nat → Bool) (sb : S3Box)
    (slug : String) (n : Int) (e : Err)
    (h : (S3Box.CreateManifests store sb slug n).2 = .fail e) :
    e = .s3WriteFailed := by
  unfold S3Box.CreateManifests at h
  rcases hd : S3Box.dumpToS3 store sb with ⟨sb1, od⟩
  rw [hd] at h
  cases od with
  | some e2 =>
    simp only at h
    cases h
    exact dump_fail_err store sb e (by rw [hd])
  | none =>
    simp only at h
    set nM : Int :=
      if n > (sb1.fileLocations.length : Int) then
        (sb1.fileLocations.length : Int)
      else n with hnM
    split at h
    · simp at h
    · split at h
      · simp at h
      · split at h
        · rename_i e2 heq
          simp only at h
          cases h
          exact uploadLoop_fail_err store slug _ _ _ _ heq
        · simp at h

/-- The only errors `copyToRedshift` returns come from the transaction:
`txFailure` (Begin/Commit) or `txExecFailure` (Exec). -/
theorem copyToRedshift_err (beginOk : Bool) (execOk : String → Bool)
    (commitOk : Bool) (rb : Box) (manifests : List String) (e : Err)
    (h : (rb.copyToRedshift beginOk execOk commitOk manifests).2 = some e) :
    e = .txFailure ∨ e = .txExecFailure := by
  unfold Box.copyToRedshift at h
  split at h
  · simp at h
    exact Or.inl h.symm
  · split at h
    · simp at h
      exact Or.inr h.symm
    · rcases hl : execCopyLoop execOk rb manifests with ⟨evs, ok⟩
      rw [hl] at h
      by_cases hok : ok
      · subst hok
        simp only [if_true] at h
        split at h
        · simp at h
        · simp at h
          exact Or.inl h.symm
      · simp only [Bool.not_eq_true] at hok
        subst hok
        simp at h
        exact Or.inr h.symm

/-- When every COPY statement is accepted, the manifest loop execs each
statement in order and reports success. -/
theorem execCopyLoop_all (execOk : String → Bool) (rb : Box) :
    ∀ manifests : List String,
      (∀ m ∈ manifests, execOk (rb.copyStatement m) = true) →
      execCopyLoop execOk rb manifests
        = (manifests.map (fun m => DBEvent.exec (rb.copyStatement m)), true) := by
  intro manifests
  induction manifests with
  | nil => intro _; rfl
  | cons m rest ih =>
    intro h
    unfold execCopyLoop
    rw [ih (fun x hx => h x (List.mem_cons_of_mem _ hx))]
    simp [h m (List.mem_cons_self _ _)]

/-- Every event the manifest loop emits is an exec. -/
theorem execCopyLoop_events (execOk : String → Bool) (rb : Box) :
    ∀ manifests : List String,
      ∀ ev ∈ (execCopyLoop execOk rb manifests).1, ∃ s, ev = .exec s := by
  intro manifests
  induction manifests with
  | nil =>
    intro ev hev
    simp [execCopyLoop] at hev
  | cons m rest ih =>
    intro ev hev
    rcases hl : execCopyLoop execOk rb rest with ⟨evs, ok⟩
    unfold execCopyLoop at hev
    by_cases hm : execOk (rb.copyStatement m)
    · rw [hl] at hev
      simp [hm] at hev
      rcases hev with h | h
      · exact ⟨_, h⟩
      · exact ih ev (by rw [hl]; exact h)
    · simp [hm] at hev
      exact ⟨_, hev⟩

/-- If some COPY statement is refused, the manifest loop reports failure. -/
theorem execCopyLoop_false (execOk : String → Bool) (rb : Box) :
    ∀ manifests : List String,
      (∃ m ∈ manifests, execOk (rb.copyStatement m) = false) →
      (execCopyLoop execOk rb manifests).2 = false := by
  intro manifests
  induction manifests with
  | nil =>
    intro h
    simp at h
  | cons m rest ih =>
    intro h
    rcases hl : execCopyLoop execOk rb rest with ⟨evs, ok⟩
    unfold execCopyLoop
    by_cases hm : execOk (rb.copyStatement m)
    · rcases h with ⟨x, hx, hfx⟩
      rcases List.mem_cons.mp hx with rfl | hx2
      · rw [hm] at hfx
        cases hfx
      · have := ih ⟨x, hx2, hfx⟩
        rw [hl] at this
        simp [hm, hl, this]
    · simp [hm]

/-- Case sweep over `Ship` on an unshipped box: the outcome is never the
already-shipped rejection; an error outcome leaves the shipped flag false;
a successful outcome sets it. -/
theorem ship_cases (store : Nat → Bool) (beginOk : Bool)
    (execOk : String → Bool) (commitOk : Bool) (now : String) (rb : Box)
    (h : rb.shipped = false) :
    (Box.Ship store beginOk execOk commitOk now rb).2.2 ≠ .fail .boxShipped ∧
    (∀ e, (Box.Ship store beginOk execOk commitOk now rb).2.2 = .fail e →
      (Box.Ship store beginOk execOk commitOk now rb).1.shipped = false) ∧
    (∀ ns, (Box.Ship store beginOk execOk commitOk now rb).2.2 = .ok ns →
      (Box.Ship store beginOk execOk commitOk now rb).1.shipped = true) := by
  unfold Box.Ship
  rw [h]
  simp only [Bool.false_eq_true, if_false]
  split
  · refine ⟨by simp, ?_, ?_⟩
    · intro e _
      exact h
    · intro ns hh
      simp at hh
  · split
    · rename_i sb1 e heq
      have he : e = .s3WriteFailed :=
        createManifests_fail_err _ _ _ _ _ (by rw [heq])
      subst he
      refine ⟨by simp, ?_, ?_⟩
      · intro e' _
        simp
      · intro ns hh
        simp at hh
    · refine ⟨by simp, ?_, ?_⟩
      · intro e' hh
        simp at hh
      · intro ns hh
        simp at hh
    · rename_i sb1 manifests heq
      split
      · refine ⟨by simp, ?_, ?_⟩
        · intro e' _
          simp
        · intro ns hh
          simp at hh
      · split
        · rename_i tr e2 heq2
          have he2 := copyToRedshift_err _ _ _ _ _ _ (by rw [heq2])
          refine ⟨?_, ?_, ?_⟩
          · rcases he2 with h3 | h3 <;> simp [h3]
          · intro e' _
            simp
          · intro ns hh
            simp at hh
        · refine ⟨by simp, ?_, ?_⟩
          · intro e' hh
            simp at hh
          · intro ns _
            simp

/-! ## Claims -/

/-- C1: for every non-empty produced-location list of length `L` and every
requested manifest count `N ≥ 1` (store writes succeeding), `CreateManifests`
clamps `N` to `min N L` and returns that many manifest names; the location
at 0-based index `i` (in append order) lands in manifest group `i mod N`
(each group is exactly the ordered sublist of locations at congruent
indices, so every location is covered exactly once: totals add up to `L`),
and the group sizes are `L / N` or `L / N + 1`, hence differ by at most
one. -/
theorem c1_round_robin_partition (store : Nat → Bool) (sb : S3Box)
    (slug : String) (N : Int) (n : Nat)
    (hbuf : sb.bufferedData = []) (hloc : sb.fileLocations ≠ [])
    (hN : 1 ≤ N) (hstore : ∀ k, store k = true)
    (hn : n = min N.toNat sb.fileLocations.length) :
    (∃ sb2 names, S3Box.CreateManifests store sb slug N = (sb2, .ok names) ∧
      names.length = n) ∧
    (∀ j, j < n →
      (manifestGroups sb.fileLocations n).getD j []
        = modSelect sb.fileLocations 0 n j) ∧
    totalEntries (manifestGroups sb.fileLocations n)
      = sb.fileLocations.length ∧
    (∀ j, j < n →
      ((manifestGroups sb.fileLocations n).getD j []).length
        = sb.fileLocations.length / n
          + (if j < sb.fileLocations.length % n then 1 else 0)) ∧
    (∀ j k, j < n → k < n →
      ((manifestGroups sb.fileLocations n).getD j []).length
        ≤ ((manifestGroups sb.fileLocations n).getD k []).length + 1) := by
  have hL : 0 < sb.fileLocations.length := List.length_pos.mpr hloc
  have hnpos : 0 < n := by omega
  have hrepLen : (List.replicate n ([] : List ManifestEntry)).length = n :=
    List.length_replicate n []
  have hB : ∀ j, j < n →
      (manifestGroups sb.fileLocations n).getD j []
        = modSelect sb.fileLocations 0 n j := by
    intro j hj
    unfold manifestGroups
    rw [distributeLoop_getD n hnpos sb.fileLocations 0 _ hrepLen j hj]
    rw [getD_replicate_lt n j [] [] hj]
    simp
  have hD : ∀ j, j < n →
      ((manifestGroups sb.fileLocations n).getD j []).length
        = sb.fileLocations.length / n
          + (if j < sb.fileLocations.length % n then 1 else 0) := by
    intro j hj
    rw [hB j hj, modSelect_length, cntFrom_closed n j hnpos hj]
  refine ⟨?_, hB, ?_, hD, ?_⟩
  · have hd : S3Box.dumpToS3 store sb = (sb, none) := by
      unfold S3Box.dumpToS3
      rw [if_pos hbuf]
    unfold S3Box.CreateManifests
    rw [hd]
    simp only
    set nM : Int :=
      if N > (sb.fileLocations.length : Int) then (sb.fileLocations.length : Int)
      else N with hnMdef
    have hnMn : nM.toNat = n := by
      rw [hnMdef]
      split <;> omega
    have hnM0 : ¬ nM < 0 := by
      rw [hnMdef]
      split <;> omega
    have hnMz : ¬ (nM = 0 ∧ sb.fileLocations ≠ []) := by
      rintro ⟨hz, _⟩
      rw [hnMdef] at hz
      revert hz
      split <;> omega
    rw [if_neg hnM0, if_neg hnMz]
    rcases hu : uploadLoop store slug (manifestGroups sb.fileLocations nM.toNat)
        0 sb.writeCount with ⟨names, wc, e⟩
    have hul := uploadLoop_all store slug hstore
      (manifestGroups sb.fileLocations nM.toNat) 0 sb.writeCount
    rw [hu] at hul
    obtain ⟨hlen, hnone⟩ := hul
    simp only at hlen hnone
    subst hnone
    refine ⟨_, names, rfl, ?_⟩
    rw [hlen, manifestGroups_length, hnMn]
  · unfold manifestGroups
    rw [distributeLoop_total n hnpos sb.fileLocations 0 _ hrepLen]
    have hz : totalEntries (List.replicate n ([] : List ManifestEntry)) = 0 := by
      simp [totalEntries]
    omega
  · intro j k hj hk
    rw [hD j hj, hD k hk]
    split_ifs <;> omega

/-- Witness for C1: ten locations into five manifests — five names, each
group the congruent-index sublist, total ten, all sizes equal to two. -/
theorem c1_round_robin_partition_witness :
    (∃ sb2 names, S3Box.CreateManifests storeT sbTen "slug" 5
        = (sb2, .ok names) ∧ names.length = 5) ∧
    (∀ j, j < 5 →
      (manifestGroups sbTen.fileLocations 5).getD j []
        = modSelect sbTen.fileLocations 0 5 j) ∧
    totalEntries (manifestGroups sbTen.fileLocations 5)
      = sbTen.fileLocations.length ∧
    (∀ j, j < 5 →
      ((manifestGroups sbTen.fileLocations 5).getD j []).length
        = sbTen.fileLocations.length / 5
          + (if j < sbTen.fileLocations.length % 5 then 1 else 0)) ∧
    (∀ j k, j < 5 → k < 5 →
      ((manifestGroups sbTen.fileLocations 5).getD j []).length
        ≤ ((manifestGroups sbTen.fileLocations 5).getD k []).length + 1) :=
  c1_round_robin_partition storeT sbTen "slug" 5 5 rfl (by decide)
    (by decide) (fun _ => rfl) (by decide)

/-- C2: for every buffer state and every record whose appended size pushes
the buffer past the threshold, if the triggered flush's store write fails
then `Pack` returns that error, the in-memory buffer is restored to its
state immediately before the `Pack` call appended the record, and the
produced-location list is unchanged. -/
theorem c2_failed_flush_restores_buffer (store : Nat → Bool) (sb : S3Box)
    (row : List Nat) (h1 : sb.isShipped = false)
    (h2 : sb.bufferedData.length + row.length + 1 > sb.bufferSize)
    (h3 : store sb.writeCount = false) :
    (S3Box.Pack store sb row).2 = some .s3WriteFailed ∧
    (S3Box.Pack store sb row).1.bufferedData = sb.bufferedData ∧
    (S3Box.Pack store sb row).1.fileLocations = sb.fileLocations := by
  rw [pack_flushFail store sb row h1 h2 h3]
  exact ⟨rfl, rfl, rfl⟩

/-- Witness for C2 at a concrete input: an open box with a 2-byte capacity,
an empty buffer and a 2-byte record whose flush write is refused. -/
theorem c2_failed_flush_restores_buffer_witness :
    let sb : S3Box :=
      { s3Bucket := "b", bufferSize := 2, bufferedData := [], timestamp := 0,
        fileLocations := [], isShipped := false, writeCount := 0 }
    let store : Nat → Bool := fun _ => false
    (S3Box.Pack store sb [65, 66]).2 = some .s3WriteFailed ∧
    (S3Box.Pack store sb [65, 66]).1.bufferedData = sb.bufferedData ∧
    (S3Box.Pack store sb [65, 66]).1.fileLocations = sb.fileLocations :=
  c2_failed_flush_restores_buffer (fun _ => false) _ [65, 66] rfl
    (by decide) rfl

/-- C3 as stated is false: with the store made to fail exactly once, a
`pack` that triggers a flush leaves the buffer at its pre-call length (the
code restores `oldBuffer`), not at the pre-call length plus the appended
record. Concretely: an empty 2-byte-capacity buffer, record `[65, 66]`, a
store failing exactly on its first call — the post-call buffer length is 0,
not 0 + 2 + 1. -/
theorem c3_counterexample :
    let sb : S3Box :=
      { s3Bucket := "b", bufferSize := 2, bufferedData := [], timestamp := 0,
        fileLocations := [], isShipped := false, writeCount := 0 }
    let store : Nat → Bool := fun k => decide (0 < k)
    (S3Box.Pack store sb [65, 66]).2 ≠ none ∧
    (S3Box.Pack store sb [65, 66]).1.fileLocations.length
      = sb.fileLocations.length ∧
    ¬ (S3Box.Pack store sb [65, 66]).1.bufferedData.length
        = sb.bufferedData.length + ([65, 66] : List Nat).length + 1 := by
  refine ⟨by decide, by decide, by decide⟩

/-- C3 amended: with the store made to fail exactly once (its next call
fails, all later calls succeed), a `pack` call that triggers a flush
returns an error, the buffer length afterwards equals its pre-call length
(the appended record is not retained: the code restores the pre-append
buffer), and the produced-object count is unchanged. -/
theorem c3_single_failure_pack (store : Nat → Bool) (sb : S3Box)
    (row : List Nat) (h1 : sb.isShipped = false)
    (h2 : sb.bufferedData.length + row.length + 1 > sb.bufferSize)
    (hstore : ∀ k, store k = decide (k ≠ sb.writeCount)) :
    (S3Box.Pack store sb row).2 ≠ none ∧
    (S3Box.Pack store sb row).1.bufferedData.length
      = sb.bufferedData.length ∧
    (S3Box.Pack store sb row).1.fileLocations.length
      = sb.fileLocations.length := by
  have h3 : store sb.writeCount = false := by simp [hstore]
  rw [pack_flushFail store sb row h1 h2 h3]
  exact ⟨by simp, rfl, rfl⟩

/-- Witness for C3 (amended) at the concrete input of the counterexample. -/
theorem c3_single_failure_pack_witness :
    let sb : S3Box :=
      { s3Bucket := "b", bufferSize := 2, bufferedData := [], timestamp := 0,
        fileLocations := [], isShipped := false, writeCount := 0 }
    let store : Nat → Bool := fun k => decide (k ≠ 0)
    (S3Box.Pack store sb [65, 66]).2 ≠ none ∧
    (S3Box.Pack store sb [65, 66]).1.bufferedData.length
      = sb.bufferedData.length ∧
    (S3Box.Pack store sb [65, 66]).1.fileLocations.length
      = sb.fileLocations.length :=
  c3_single_failure_pack (fun k => decide (k ≠ 0)) _ [65, 66] rfl
    (by decide) (fun k => rfl)

/-- C7: for every byte string that `json.Unmarshal` cannot read into a map
(the `jsonOk` oracle standing for the external JSON parser), `Pack` on an
open session returns the invalid-input error and has no side effect: the
returned box — in particular its buffer and produced-location list — is the
input box. -/
theorem c7_invalid_json_rejected (jsonOk : List Nat → Bool)
    (store : Nat → Bool) (rb : Box) (row : List Nat)
    (h1 : rb.shipped = false) (h2 : rb.shippingInProgress = false)
    (h3 : jsonOk row = false) :
    Box.Pack jsonOk store rb row = (rb, some .invalidJSONInput) := by
  simp [Box.Pack, h1, h2, h3]

/-- C4: for every execution of `Ship` on an unshipped session that returns
an error (manifest-creation failure, `NothingToShip`, or any transaction
failure), the session's shipped flag remains false afterwards, so a
subsequent `Ship` call is not rejected with the already-shipped error; and
`Ship` sets the shipped flag only when the transactional load fully
succeeds. -/
theorem c4_failed_ship_not_shipped (store : Nat → Bool) (beginOk : Bool)
    (execOk : String → Bool) (commitOk : Bool) (now : String) (rb : Box)
    (h : rb.shipped = false) :
    (∀ e, (Box.Ship store beginOk execOk commitOk now rb).2.2 = .fail e →
      (Box.Ship store beginOk execOk commitOk now rb).1.shipped = false ∧
      ∀ (store2 : Nat → Bool) (beginOk2 : Bool) (execOk2 : String → Bool)
          (commitOk2 : Bool) (now2 : String),
        (Box.Ship store2 beginOk2 execOk2 commitOk2 now2
            (Box.Ship store beginOk execOk commitOk now rb).1).2.2
          ≠ .fail .boxShipped) ∧
    (∀ ns, (Box.Ship store beginOk execOk commitOk now rb).2.2 = .ok ns →
      (Box.Ship store beginOk execOk commitOk now rb).1.shipped = true) := by
  obtain ⟨h1, h2, h3⟩ := ship_cases store beginOk execOk commitOk now rb h
  refine ⟨?_, h3⟩
  intro e he
  have hsf := h2 e he
  exact ⟨hsf, fun s2 b2 e2 c2 n2 => (ship_cases s2 b2 e2 c2 n2 _ hsf).1⟩

/-- Witness for C4: a fresh session whose `Ship` fails with
`NothingToShip`; its shipped flag is false and a retry is not rejected as
already shipped. -/
theorem c4_failed_ship_not_shipped_witness :
    (Box.Ship storeT true execT true "now" rbFresh).1.shipped = false ∧
    (Box.Ship storeT true execT true "now"
        (Box.Ship storeT true execT true "now" rbFresh).1).2.2
      ≠ .fail .boxShipped := by
  have h := (c4_failed_ship_not_shipped storeT true execT true "now" rbFresh
    rfl).1 .nothingToShip (by decide)
  exact ⟨h.1, h.2 storeT true execT true "now"⟩

/-- C8: once a session is shipped — the state every successful `Ship`
leaves behind — every subsequent `Pack` and every subsequent `Ship` returns
the already-shipped error and leaves the box (buffer, location list) and
the destination (no transaction calls) untouched. -/
theorem c8_after_shipped_rejected (jsonOk : List Nat → Bool)
    (store : Nat → Bool) (beginOk : Bool) (execOk : String → Bool)
    (commitOk : Bool) (now : String) (row : List Nat) :
    (∀ rb : Box, rb.shipped = true →
      Box.Pack jsonOk store rb row = (rb, some .boxShipped) ∧
      Box.Ship store beginOk execOk commitOk now rb
        = (rb, [], .fail .boxShipped)) ∧
    (∀ (rb rb2 : Box) (tr : List DBEvent) (ns : List String),
      Box.Ship store beginOk execOk commitOk now rb = (rb2, tr, .ok ns) →
      rb2.shipped = true) := by
  constructor
  · intro rb h
    constructor
    · simp [Box.Pack, h]
    · simp [Box.Ship, h]
  · intro rb rb2 tr ns hsh
    by_cases h : rb.shipped
    · simp [Box.Ship, h] at hsh
    · have h3 := (ship_cases store beginOk execOk commitOk now rb
        (by simpa using h)).2.2
      have h4 := h3 ns (by rw [hsh])
      rw [hsh] at h4
      exact h4

/-- Witness for C8: a shipped session rejects `Pack` and `Ship` without
any mutation or transaction call. -/
theorem c8_after_shipped_rejected_witness :
    let sb : S3Box :=
      { s3Bucket := "b", bufferSize := 10, bufferedData := [], timestamp := 0,
        fileLocations := [], isShipped := true, writeCount := 0 }
    let rb : Box :=
      { schema := "s", table := "t", awsKey := "k", awsPassword := "p",
        s3Bucket := "b", s3Region := "r", truncate := false, nManifests := 4,
        s3Box := sb, shippingInProgress := false, shipped := true }
    Box.Pack (fun _ => true) (fun _ => true) rb [65]
      = (rb, some .boxShipped) ∧
    Box.Ship (fun _ => true) true (fun _ => true) true "now" rb
      = (rb, [], .fail .boxShipped) :=
  (c8_after_shipped_rejected (fun _ => true) (fun _ => true) true
    (fun _ => true) true "now" [65]).1 _ rfl

/-- C5: for every non-empty manifest list, the transactional load issues
`Begin`, then (when the truncate flag is configured) exactly one DELETE
statement before any load statement, then one COPY statement per manifest
in order, then `Commit`; and if any `Exec` fails, `Rollback` is invoked,
`Commit` is never invoked, and the exec error is returned. -/
theorem c5_transactional_load (rb : Box) (manifests : List String)
    (execOk : String → Bool) (commitOk : Bool) (hne : manifests ≠ []) :
    ((∀ m ∈ manifests, execOk (rb.copyStatement m) = true) →
      (rb.truncate = true → execOk rb.deleteStatement = true) →
      commitOk = true →
      rb.copyToRedshift true execOk commitOk manifests
        = ([DBEvent.begin]
            ++ (if rb.truncate then [DBEvent.exec rb.deleteStatement] else [])
            ++ manifests.map (fun m => DBEvent.exec (rb.copyStatement m))
            ++ [DBEvent.commit], none)) ∧
    (((rb.truncate = true ∧ execOk rb.deleteStatement = false) ∨
        (∃ m ∈ manifests, execOk (rb.copyStatement m) = false)) →
      (rb.copyToRedshift true execOk commitOk manifests).2
          = some .txExecFailure ∧
      DBEvent.rollback ∈ (rb.copyToRedshift true execOk commitOk manifests).1 ∧
      DBEvent.commit ∉ (rb.copyToRedshift true execOk commitOk manifests).1) := by
  constructor
  · intro hall htr hc
    subst hc
    unfold Box.copyToRedshift
    rw [execCopyLoop_all execOk rb manifests hall]
    have hcond : ¬ (rb.truncate = true ∧ ¬ execOk rb.deleteStatement = true) := by
      rintro ⟨ht, hd⟩
      exact hd (htr ht)
    simp [hcond]
    exact htr
  · intro hfail
    by_cases htd : rb.truncate = true ∧ execOk rb.deleteStatement = false
    · have hcond : rb.truncate = true ∧ ¬ execOk rb.deleteStatement = true := by
        exact ⟨htd.1, by simp [htd.2]⟩
      unfold Box.copyToRedshift
      simp [hcond]
    · have hex : ∃ m ∈ manifests, execOk (rb.copyStatement m) = false := by
        rcases hfail with h | h
        · exact absurd h htd
        · exact h
      have hok := execCopyLoop_false execOk rb manifests hex
      have hevents := execCopyLoop_events execOk rb manifests
      rcases hl : execCopyLoop execOk rb manifests with ⟨evs, ok⟩
      rw [hl] at hok hevents
      simp only at hok hevents
      subst hok
      refine ⟨?_, ?_, ?_⟩
      · unfold Box.copyToRedshift
        rw [hl]
        simp [htd]
      · unfold Box.copyToRedshift
        rw [hl]
        simp [htd]
      · by_cases ht : rb.truncate = true
        · have hdel : execOk rb.deleteStatement = true := by
            by_contra hd
            exact htd ⟨ht, by simpa using hd⟩
          unfold Box.copyToRedshift
          rw [hl]
          simp [ht, hdel]
          intro hmem
          rcases hevents _ hmem with ⟨s, hs⟩
          cases hs
        · unfold Box.copyToRedshift
          rw [hl]
          simp [htd, ht]
          intro hmem
          rcases hevents _ hmem with ⟨s, hs⟩
          cases hs

/-- Witness for C5: a truncate-configured session loading two manifests —
Begin, one DELETE, two COPYs in order, Commit, no error. -/
theorem c5_transactional_load_witness :
    Box.copyToRedshift true execT true rbTrunc ["m1", "m2"]
      = ([DBEvent.begin]
          ++ (if rbTrunc.truncate then [DBEvent.exec rbTrunc.deleteStatement]
              else [])
          ++ (["m1", "m2"] : List String).map
              (fun m => DBEvent.exec (rbTrunc.copyStatement m))
          ++ [DBEvent.commit], none) :=
  (c5_transactional_load rbTrunc ["m1", "m2"] execT true (by decide)).1
    (fun _ _ => rfl) (fun _ => rfl) rfl

/-- The names collected by the manifest-upload loop: the j-th collected
name is `<slug>_<i+j>.manifest`. -/
theorem uploadLoop_names (store : Nat → Bool) (slug : String) :
    ∀ (groups : List (List ManifestEntry)) (i wc j : Nat),
      j < (uploadLoop store slug groups i wc).1.length →
      (uploadLoop store slug groups i wc).1.getD j ""
        = slug ++ "_" ++ toString (i + j) ++ ".manifest" := by
  intro groups
  induction groups with
  | nil =>
    intro i wc j h
    simp [uploadLoop] at h
  | cons g rest ih =>
    intro i wc j h
    rcases hrec : uploadLoop store slug rest (i + 1) (wc + 1) with ⟨names, wc2, e⟩
    by_cases hs : store wc
    · unfold uploadLoop at h ⊢
      rw [hrec] at h ⊢
      simp only [hs, if_true] at h ⊢
      cases j with
      | zero => simp
      | succ j =>
        simp only [List.getD_cons_succ]
        have hj : j < (uploadLoop store slug rest (i + 1) (wc + 1)).1.length := by
          rw [hrec]
          simpa using h
        have := ih (i + 1) (wc + 1) j hj
        rw [hrec] at this
        simp only at this
        rw [this, show i + (j + 1) = i + 1 + j by omega]
    · unfold uploadLoop at h
      simp [hs] at h

/-- C9 as stated is false in its data-key part: the uploaded data object's
key carries the suffix `.gz`, not `.json.gz`. Concretely: a box created at
timestamp 7 flushing its first buffer produces the location
`s3://b/7_0.gz`, not `s3://b/7_0.json.gz`. -/
theorem c9_counterexample :
    (S3Box.dumpToS3 storeT { sbFresh with bufferedData := [1] }).1.fileLocations
      = ["s3://b/7_0.gz"] ∧
    (S3Box.dumpToS3 storeT
        { sbFresh with bufferedData := [1] }).1.fileLocations
      ≠ ["s3://b/7_0.json.gz"] := by
  exact ⟨by decide, by decide⟩

/-- C9 amended: for every flush that succeeds, the key of the uploaded
data object is the session-creation timestamp followed by an underscore
and the zero-based sequence number of the flush, with suffix `.gz` (not
`.json.gz`); and every manifest collected by the upload loop is named
`<slug>_<groupIndex>.manifest`. -/
theorem c9_object_keys (store : Nat → Bool) (sb : S3Box)
    (h1 : sb.bufferedData ≠ []) (h2 : store sb.writeCount = true) :
    (S3Box.dumpToS3 store sb).1.fileLocations
      = sb.fileLocations
        ++ ["s3://" ++ sb.s3Bucket ++ "/" ++ toString sb.timestamp ++ "_"
            ++ toString sb.fileLocations.length ++ ".gz"] ∧
    (S3Box.dumpToS3 store sb).2 = none ∧
    ∀ (slug : String) (groups : List (List ManifestEntry)) (wc j : Nat),
      j < (uploadLoop store slug groups 0 wc).1.length →
      (uploadLoop store slug groups 0 wc).1.getD j ""
        = slug ++ "_" ++ toString j ++ ".manifest" := by
  refine ⟨?_, ?_, ?_⟩
  · unfold S3Box.dumpToS3
    rw [if_neg h1]
    simp [h2, String.append_assoc]
  · unfold S3Box.dumpToS3
    rw [if_neg h1]
    simp [h2]
  · intro slug groups wc j h
    have := uploadLoop_names store slug groups 0 wc j h
    simpa using this

/-- Witness for C9 (amended): the first flush of the fixture box and a
two-group upload. -/
theorem c9_object_keys_witness :
    (S3Box.dumpToS3 storeT { sbFresh with bufferedData := [1] }).1.fileLocations
      = ({ sbFresh with bufferedData := [1] } : S3Box).fileLocations
        ++ ["s3://" ++ ({ sbFresh with bufferedData := [1] } : S3Box).s3Bucket
            ++ "/"
            ++ toString ({ sbFresh with bufferedData := [1] } : S3Box).timestamp
            ++ "_"
            ++ toString ({ sbFresh with
                bufferedData := [1] } : S3Box).fileLocations.length
            ++ ".gz"] ∧
    (S3Box.dumpToS3 storeT { sbFresh with bufferedData := [1] }).2 = none ∧
    ∀ (slug : String) (groups : List (List ManifestEntry)) (wc j : Nat),
      j < (uploadLoop storeT slug groups 0 wc).1.length →
      (uploadLoop storeT slug groups 0 wc).1.getD j ""
        = slug ++ "_" ++ toString j ++ ".manifest" :=
  c9_object_keys storeT { sbFresh with bufferedData := [1] } (by decide) rfl

/-- C10: `CreateManifests` is partial in its manifest count: on a box with
at least one produced location (and nothing left to flush), any requested
count `N ≤ 0` panics — `N = 0` reaches the loop's `i % 0` division by
zero, a negative `N` the negative-length `make` — while the `NewRedbox`
constructor avoids this by defaulting any non-positive configured count to
4, so a constructed session always carries a count of at least 1. -/
theorem c10_nonpositive_count_panics :
    (∀ (store : Nat → Bool) (sb : S3Box) (slug : String) (N : Int),
      sb.bufferedData = [] → sb.fileLocations ≠ [] → N ≤ 0 →
      (S3Box.CreateManifests store sb slug N).2 = .panics) ∧
    (∀ (options : NewRedboxOptions) (ts : Nat) (rb : Box),
      NewRedbox options ts = some rb →
      1 ≤ rb.nManifests ∧
      (options.nManifests ≤ 0 → rb.nManifests = defaultNManifests)) := by
  constructor
  · intro store sb slug N h3 h4 hN
    have hd : S3Box.dumpToS3 store sb = (sb, none) := by
      unfold S3Box.dumpToS3
      rw [if_pos h3]
    have hlen : 0 < sb.fileLocations.length := List.length_pos.mpr h4
    unfold S3Box.CreateManifests
    rw [hd]
    simp only
    rw [if_neg (by omega : ¬ N > (sb.fileLocations.length : Int))]
    rcases lt_or_eq_of_le hN with h | h
    · rw [if_pos h]
    · rw [if_neg (by omega), if_pos ⟨h, h4⟩]
  · intro options ts rb h
    unfold NewRedbox at h
    split at h
    · cases h
    · simp only [Option.some.injEq] at h
      subst h
      by_cases ho : options.nManifests ≤ 0 <;>
        simp [ho, defaultNManifests] <;> omega

/-- Witness for C10: a one-location box panics at counts 0 and -3, and the
constructor turns a configured count of 0 into 4. -/
theorem c10_nonpositive_count_panics_witness :
    (S3Box.CreateManifests storeT { sbFresh with fileLocations := ["f0"] }
        "s" 0).2 = .panics ∧
    (S3Box.CreateManifests storeT { sbFresh with fileLocations := ["f0"] }
        "s" (-3)).2 = .panics ∧
    (1 ≤ rbFresh.nManifests ∧
      (optsW.nManifests ≤ 0 → rbFresh.nManifests = defaultNManifests)) :=
  ⟨c10_nonpositive_count_panics.1 storeT _ "s" 0 rfl (by decide) (by decide),
   c10_nonpositive_count_panics.1 storeT _ "s" (-3) rfl (by decide) (by decide),
   c10_nonpositive_count_panics.2 optsW 7 rbFresh (by decide)⟩

/-- `CreateManifests` on a box that never flushed anything: the dump is a
no-op, the requested count is clamped to zero, no manifest is produced —
and the box is still marked shipped. -/
theorem createManifests_empty (store : Nat → Bool) (sb : S3Box)
    (slug : String) (N : Int) (h3 : sb.bufferedData = [])
    (h4 : sb.fileLocations = []) (h5 : 1 ≤ N) :
    S3Box.CreateManifests store sb slug N
      = ({ sb with isShipped := true }, .ok []) := by
  have hd : S3Box.dumpToS3 store sb = (sb, none) := by
    unfold S3Box.dumpToS3
    rw [if_pos h3]
  have hpos : (0 : Int) < N := by omega
  unfold S3Box.CreateManifests
  rw [hd]
  simp [h4, hpos, manifestGroups, distributeLoop, uploadLoop]

/-- C6 as stated is false in its last part: after `Ship` fails with
`NothingToShip` on a never-packed session, ingestion is not permitted
again — `CreateManifests` marked the underlying `S3Box` shipped even though
it produced zero manifests, so the next `Pack` is rejected with the box's
shipped error. Concrete run: fresh session, `Ship`, then `Pack` of a valid
row returns an error instead of succeeding. -/
theorem c6_counterexample :
    let sb : S3Box :=
      { s3Bucket := "b", bufferSize := 10, bufferedData := [], timestamp := 0,
        fileLocations := [], isShipped := false, writeCount := 0 }
    let rb : Box :=
      { schema := "s", table := "t", awsKey := "k", awsPassword := "p",
        s3Bucket := "b", s3Region := "r", truncate := false, nManifests := 4,
        s3Box := sb, shippingInProgress := false, shipped := false }
    (Box.Ship (fun _ => true) true (fun _ => true) true "now" rb).2.2
      = .fail .nothingToShip ∧
    (Box.Pack (fun _ => true) (fun _ => true)
        (Box.Ship (fun _ => true) true (fun _ => true) true "now" rb).1
        [65]).2 ≠ none := by
  exact ⟨by decide, by decide⟩

/-- C6 amended: for every session in which no data was ever packed (empty
buffer and empty location list, configured manifest count at least one, as
the constructor guarantees), `Ship` returns the `NothingToShip` error, no
destination transaction is begun (the transaction trace is empty) and the
session's shipped flag remains false — but the session is not open for
ingestion again: the underlying box is marked shipped, so a subsequent
`Pack` of a parseable row is rejected with the box's shipped error. -/
theorem c6_nothing_to_ship (store store2 : Nat → Bool)
    (jsonOk : List Nat → Bool) (beginOk : Bool) (execOk : String → Bool)
    (commitOk : Bool) (now : String) (row : List Nat) (rb : Box)
    (h1 : rb.shipped = false) (h2 : rb.shippingInProgress = false)
    (h3 : rb.s3Box.bufferedData = []) (h4 : rb.s3Box.fileLocations = [])
    (h5 : 1 ≤ rb.nManifests) (hjson : jsonOk row = true) :
    (Box.Ship store beginOk execOk commitOk now rb).2.2
      = .fail .nothingToShip ∧
    (Box.Ship store beginOk execOk commitOk now rb).2.1 = [] ∧
    (Box.Ship store beginOk execOk commitOk now rb).1.shipped = false ∧
    (Box.Ship store beginOk execOk commitOk now rb).1.s3Box.isShipped = true ∧
    (Box.Pack jsonOk store2 (Box.Ship store beginOk execOk commitOk now rb).1
        row).2 = some .boxIsShipped := by
  have hcm := createManifests_empty store rb.s3Box (rb.manifestSlug now)
    rb.nManifests h3 h4 h5
  have hship : Box.Ship store beginOk execOk commitOk now rb
      = ({ rb with s3Box := { rb.s3Box with isShipped := true } }, [],
         .fail .nothingToShip) := by
    simp [Box.Ship, h1, h2, hcm]
  rw [hship]
  refine ⟨rfl, rfl, by simpa using h1, rfl, ?_⟩
  simp [Box.Pack, h1, h2, hjson, S3Box.Pack]

/-- Witness for C6 (amended) at the fresh session of the counterexample. -/
theorem c6_nothing_to_ship_witness :
    let sb : S3Box :=
      { s3Bucket := "b", bufferSize := 10, bufferedData := [], timestamp := 0,
        fileLocations := [], isShipped := false, writeCount := 0 }
    let rb : Box :=
      { schema := "s", table := "t", awsKey := "k", awsPassword := "p",
        s3Bucket := "b", s3Region := "r", truncate := false, nManifests := 4,
        s3Box := sb, shippingInProgress := false, shipped := false }
    (Box.Ship (fun _ => true) true (fun _ => true) true "now" rb).2.2
      = .fail .nothingToShip ∧
    (Box.Ship (fun _ => true) true (fun _ => true) true "now" rb).2.1 = [] ∧
    (Box.Ship (fun _ => true) true (fun _ => true) true "now" rb).1.shipped
      = false ∧
    (Box.Ship (fun _ => true) true (fun _ => true) true
        "now" rb).1.s3Box.isShipped = true ∧
    (Box.Pack (fun _ => true) (fun _ => true)
        (Box.Ship (fun _ => true) true (fun _ => true) true "now" rb).1
        [65]).2 = some .boxIsShipped :=
  c6_nothing_to_ship (fun _ => true) (fun _ => true) (fun _ => true) true
    (fun _ => true) true "now" [65] _ rfl rfl rfl rfl (by decide) rfl

/-- Witness for C7: a fresh box rejecting a row the parser refuses. -/
theorem c7_invalid_json_rejected_witness :
    let sb : S3Box :=
      { s3Bucket := "b", bufferSize := 2, bufferedData := [], timestamp := 0,
        fileLocations := [], isShipped := false, writeCount := 0 }
    let rb : Box :=
      { schema := "s", table := "t", awsKey := "k", awsPassword := "p",
        s3Bucket := "b", s3Region := "r", truncate := false, nManifests := 4,
        s3Box := sb, shippingInProgress := false, shipped := false }
    Box.Pack (fun _ => false) (fun _ => true) rb [65]
      = (rb, some .invalidJSONInput) :=
  c7_invalid_json_rejected (fun _ => false) (fun _ => true) _ [65]
    rfl rfl rfl

end Redbox
